import Mathlib

/-!
Verification of the Brutal Maze simulation core against its
natural-language specification.

The definitions below are a shallow embedding of the Python sources in
src/brutalmaze (constants.py, misc.py, characters.py, weapons.py,
maze.py, game.py).  Python floats are modelled as real numbers (the
spec reasons under exact arithmetic), machine integers as Int/Nat,
mutable objects as explicit state passing, and randomness as explicit
oracle parameters.  Side effects that the spec declares external
(rendering, audio) are dropped.
-/

namespace Brutalmaze

/-! ### Constants (src/brutalmaze/constants.py) -/

/-- Cell code EMPTY, from `EMPTY, WALL, HERO, ENEMY = range(4)`. -/
def EMPTY : Nat := 0

/-- Cell code WALL. -/
def WALL : Nat := 1

/-- Cell code HERO. -/
def HERO : Nat := 2

/-- Cell code ENEMY. -/
def ENEMY : Nat := 3

/-- `HEAL_SPEED = 1` (HP per second). -/
def HEAL_SPEED : ℝ := 1

/-- `HERO_SPEED = 5` (grid per second). -/
def HERO_SPEED : ℝ := 5

/-- `ENEMY_SPEED = 6` (grid per second). -/
def ENEMY_SPEED : ℝ := 6

/-- `BULLET_SPEED = 15` (grid per second). -/
def BULLET_SPEED : ℝ := 15

/-- `ATTACK_SPEED = 333.333` (ms per strike). -/
def ATTACK_SPEED : ℝ := 333.333

/-- `FIRANGE = 6` (grids). -/
def FIRANGE : ℝ := 6

/-- `BULLET_LIFETIME = 1000.0 * FIRANGE / (BULLET_SPEED-HERO_SPEED)` (ms). -/
noncomputable def BULLET_LIFETIME : ℝ := 1000.0 * FIRANGE / (BULLET_SPEED - HERO_SPEED)

/-- `ENEMY_HP = 3`. -/
def ENEMY_HP : ℝ := 3

/-- `HERO_HP = 5`. -/
def HERO_HP : ℝ := 5

/-- `MIN_BEAT = 526` (ms). -/
def MIN_BEAT : ℝ := 526

/-- `SQRT2 = 2 ** 0.5`. -/
noncomputable def SQRT2 : ℝ := Real.sqrt 2

/-- The four edge-adjacent offsets, `(1, 0), (0, 1), (-1, 0), (0, -1)`
(named `ADJACENT_GRIDS` in constants.py and imported as `ADJACENTS`
by maze.py and characters.py). -/
def ADJACENTS : List (ℤ × ℤ) := [(1, 0), (0, 1), (-1, 0), (0, -1)]

/-- `ENEMIES`, the list of enemy color names. -/
def ENEMIES : List String :=
  ["Butter", "Orange", "Chocolate", "Chameleon", "SkyBlue", "Plum", "ScarletRed"]

/-! ### Move-code encoding and decoding (spec section 6 and game.py,
`Game.remote_control`) -/

/-- The wire encoding of a movement direction documented by the spec:
`moveCode = (dy+1)*3 + (dx+1)`. -/
def moveEncode (dx dy : ℤ) : ℤ := (dy + 1) * 3 + (dx + 1)

/-- The server-side decoding in `Game.remote_control`:
`y, x = (i - 1 for i in divmod(move, 3))`, so `x = move % 3 - 1` and
`y = move / 3 - 1` with floor division (Python `divmod`). -/
def moveDecode (move : ℤ) : ℤ × ℤ := (move % 3 - 1, move / 3 - 1)

/-! ### Enemy type lookup (characters.py, `new_enemy`) -/

/-- The enemy classes actually defined in the characters.py module
namespace: only `Chameleon`, `Plum` and `ScarletRed` specialize
`Enemy`; the other colors have no class of their own. -/
def moduleEnemyClasses : List String := ["Chameleon", "Plum", "ScarletRed"]

/-- Result of constructing an enemy object: the class used and the
color carried by the object. -/
structure EnemyObj where
  cls : String
  color : String
deriving DecidableEq

/-- `getattr(modules[__name__], color)` as a partial lookup: `none`
models the `AttributeError` raised when the module defines no class of
that name.  Each defined class constructor passes its own name as the
color to `Enemy.__init__`. -/
def getattrEnemyClass (color : String) : Option EnemyObj :=
  if color ∈ moduleEnemyClasses then some ⟨color, color⟩ else none

/-- `new_enemy(maze, x, y)` for a drawn color: try the class lookup and
fall back to the base `Enemy` carrying the color when the lookup
raises `AttributeError` (characters.py lines 414-420). -/
def new_enemy (color : String) : EnemyObj :=
  match getattrEnemyClass color with
  | some e => e
  | none => ⟨"Enemy", color⟩

/-! ### Enemy spawning (maze.py, `Maze.add_enemy`) -/

/-- `all(self.map[x + a][y + b] == WALL for a, b in ADJACENTS)`: the
candidate cell has all four edge-adjacent neighbors equal to WALL. -/
def allWallAdjacent (m : ℤ → ℤ → Nat) (c : ℤ × ℤ) : Bool :=
  ADJACENTS.all fun d => m (c.1 + d.1) (c.2 + d.2) == WALL

/-- `walls = [(i, j) for i in self.rangex for j in self.rangey if
self.map[i][j] == WALL]`: the visible wall cells. -/
def wallsOf (m : ℤ → ℤ → Nat) (rangex rangey : List ℤ) : List (ℤ × ℤ) :=
  ((rangex.flatMap fun i => rangey.map fun j => (i, j)).filter
    fun c => m c.1 c.2 == WALL)

/-- The `while walls and len(self.enemies) < num` loop of
`Maze.add_enemy` (maze.py lines 140-146).  `k` is the number of
enemies alive before the call, `picks` is the oracle of random
`choice(walls)` indices (also the fuel: the loop stops when the oracle
is exhausted), `acc` collects the cells passed to `new_enemy`.  A
candidate whose four neighbors are all WALL is skipped (`continue`);
otherwise the enemy is spawned there and the cell is removed from the
candidate list.  The Plum-clone branch (which merely skips
`walls.remove`) is modelled for the no-awake-Plum case `plum is None`;
it does not affect which cells can be chosen.  The real quota
`num = log(score, INIT_SCORE)` enters the loop only through the
integer comparison `len(self.enemies) < num`, which holds exactly when
`len(self.enemies)` is below the ceiling of `num`; the parameter `num`
here is that ceiling. -/
def addEnemyLoop (m : ℤ → ℤ → Nat) (num : ℕ) (k : ℕ) :
    List ℕ → List (ℤ × ℤ) → List (ℤ × ℤ) → List (ℤ × ℤ)
  | [], _, acc => acc
  | pick :: picks, walls, acc =>
    if walls.isEmpty ∨ ¬(k + acc.length < num) then acc
    else
      let c := walls.getD (pick % walls.length) (0, 0)
      if allWallAdjacent m c then addEnemyLoop m num k picks walls acc
      else addEnemyLoop m num k picks (walls.erase c) (acc ++ [c])

/-- `Maze.add_enemy`, returning the list of grid cells at which new
enemies are created (maze.py lines 133-146). -/
def add_enemy (m : ℤ → ℤ → Nat) (rangex rangey : List ℤ) (num : ℕ)
    (k : ℕ) (picks : List ℕ) : List (ℤ × ℤ) :=
  addEnemyLoop m num k picks (wallsOf m rangex rangey) []

/-- A concrete two-wall map used to exercise `add_enemy`: cells
`(0, 0)` and `(1, 0)` are WALL, everything else EMPTY. -/
def twoWallMap : ℤ → ℤ → Nat :=
  fun x y => if (x = 0 ∧ y = 0) ∨ (x = 1 ∧ y = 0) then WALL else EMPTY

/-! ### Miscellaneous numeric helpers (misc.py) -/

/-- `sign(n)` from misc.py: `-1 if n < 0 else 1 if n else 0`. -/
noncomputable def sign (n : ℝ) : ℝ :=
  if n < 0 then -1 else if n = 0 then 0 else 1

/-- Python built-in `round` on an exact real value: round half to
even.  `round2(number) = int(round(number))` from misc.py is the same
integer. -/
noncomputable def pyRound (x : ℝ) : ℤ :=
  if x - ⌊x⌋ < 1 / 2 then ⌊x⌋
  else if 1 / 2 < x - ⌊x⌋ then ⌊x⌋ + 1
  else if Even ⌊x⌋ then ⌊x⌋ else ⌊x⌋ + 1

/-- `deg(x)` from misc.py:
`round2((lambda a: a if a > 0 else a + 360)(degrees(x)))` where
`degrees(x) = x * 180 / pi`. -/
noncomputable def deg (x : ℝ) : ℤ :=
  pyRound ((fun a => if a > 0 then a else a + 360) (x * 180 / Real.pi))

/-! ### Hero (characters.py, class `Hero`) -/

/-- The per-tick mutable state of the hero (screen coordinates and
rendering data are fixed or external and omitted). -/
structure Hero where
  angle : ℝ
  next_heal : ℝ
  next_beat : ℝ
  next_strike : ℝ
  highness : ℝ
  slashing : Bool
  firing : Bool
  dead : Bool
  spin_speed : ℝ
  spin_queue : ℝ
  wound : ℝ
  wounds : List ℝ

/-- Line 76 of characters.py:
`self.spin_speed = fps / (HERO_HP-self.wound**0.5)`. -/
noncomputable def heroSpinSpeed (fps : ℝ) (h : Hero) : ℝ :=
  fps / (HERO_HP - Real.sqrt h.wound)

/-- Line 77: `self.spin_queue *= self.spin_speed / old_speed`. -/
noncomputable def heroSpinQueueRescaled (fps : ℝ) (h : Hero) : ℝ :=
  h.spin_queue * (heroSpinSpeed fps h / h.spin_speed)

/-- The matching rescaling step of `Enemy.update` (characters.py lines
308-309): `self.spin_speed, tmp = self.maze.fps / ENEMY_HP,
self.spin_speed` then `self.spin_queue *= self.spin_speed / tmp`. -/
noncomputable def enemySpinQueueRescaled (fps spin_speed spin_queue : ℝ) : ℝ :=
  spin_queue * ((fps / ENEMY_HP) / spin_speed)

/-- Line 79: `if len(self.wounds) > fps * ATTACK_SPEED / 1000:
self.wounds.popleft()`. -/
noncomputable def heroWoundsPopped (fps : ℝ) (h : Hero) : List ℝ :=
  if (h.wounds.length : ℝ) > fps * ATTACK_SPEED / 1000 then h.wounds.tail
  else h.wounds

/-- Line 80: `if sum(self.wounds) < self.next_heal:
self.next_heal = -1.0`. -/
noncomputable def heroNextHeal1 (fps : ℝ) (h : Hero) : ℝ :=
  if (heroWoundsPopped fps h).sum < h.next_heal then -1 else h.next_heal

/-- Lines 81-84: `self.wound += self.wounds[-1]`, then if healing is
allowed (`self.next_heal < 0`) subtract
`HEAL_SPEED / self.spin_speed / HERO_HP` and clamp at `0.0` from
below. -/
noncomputable def heroWound1 (fps : ℝ) (h : Hero) : ℝ :=
  let wound := h.wound + (heroWoundsPopped fps h).getLastD 0
  if heroNextHeal1 fps h < 0 then
    (let w := wound - HEAL_SPEED / heroSpinSpeed fps h / HERO_HP
     if w < 0 then 0 else w)
  else wound

/-- `Hero.update(fps)` (characters.py lines 70-102).  `rnd` is the
`randsign()` oracle, valued in -1 or 1.  Sound effects (`play`) are
external and dropped. -/
noncomputable def heroUpdate (fps rnd : ℝ) (h : Hero) : Hero :=
  if h.dead = true then { h with spin_queue := 0 } else
  let spin_speed := heroSpinSpeed fps h
  let spin_queue := heroSpinQueueRescaled fps h
  let next_heal := heroNextHeal1 fps h
  let wound := heroWound1 fps h
  let wounds := heroWoundsPopped fps h ++ [0]
  let next_beat := if h.next_beat ≤ 0 then MIN_BEAT * (2 - wound / HERO_HP)
                   else h.next_beat - 1000 / fps
  let next_strike := h.next_strike - 1000 / fps
  let sides : ℝ := if next_heal < 0 then 3 else 4
  let full_spin := Real.pi * 2 / sides
  let p1 : ℝ × ℝ × ℝ :=
    if h.slashing = true ∧ next_strike ≤ 0 then
      (ATTACK_SPEED, rnd * spin_speed,
       h.angle - sign (rnd * spin_speed) * full_spin)
    else (next_strike, spin_queue, h.angle)
  let p2 : ℝ × ℝ :=
    if pyRound p1.2.1 ≠ 0 then
      (p1.2.2 + sign p1.2.1 * full_spin / spin_speed,
       p1.2.1 - sign p1.2.1)
    else (p1.2.2, 0)
  { angle := p2.1, next_heal := next_heal, next_beat := next_beat
    next_strike := p1.1, highness := h.highness, slashing := h.slashing
    firing := h.firing, dead := h.dead, spin_speed := spin_speed
    spin_queue := p2.2, wound := wound, wounds := wounds }

/-- The hero-state effect of `Maze.lose` (maze.py lines 507-516):
`dead = True`, `wound = HERO_HP`, attack flags cleared.  The remaining
assignments of `lose` touch only maze fields and are omitted here. -/
def loseHero (h : Hero) : Hero :=
  { h with dead := true, wound := HERO_HP, slashing := false, firing := false }

/-- The hero fragment of `Maze.update` (maze.py lines 424-427): when
the hero is alive, run `Hero.update(fps)` and, if the accumulated
wound reaches `HERO_HP`, run `lose()` in the same tick.  `Maze.slash`,
which runs in between, adds only to `hero.wounds` (via `hit_hero`),
never to `hero.wound`, so it does not affect the wound value read by
the check. -/
noncomputable def heroTick (fps rnd : ℝ) (h : Hero) : Hero :=
  if h.dead = true then h else
  let h2 := heroUpdate fps rnd h
  if HERO_HP ≤ h2.wound then loseHero h2 else h2

/-! ### Bullets (weapons.py, class `Bullet`; maze.py,
`Maze.track_bullets`) -/

/-- The state of a bullet (the surface and the sound effects are
external and omitted). -/
structure Bullet where
  x : ℝ
  y : ℝ
  angle : ℝ
  color : String
  fall_time : ℝ

/-- `Bullet.__init__`: a fresh bullet starts with
`fall_time = BULLET_LIFETIME`. -/
noncomputable def newBullet (x y angle : ℝ) (color : String) : Bullet :=
  ⟨x, y, angle, color, BULLET_LIFETIME⟩

/-- `Bullet.update(fps, distance)` (weapons.py lines 51-56):
`s = distance * BULLET_SPEED / fps`; `x += s*cos(angle)`;
`y += s*sin(angle)`; `fall_time -= 1000.0 / fps`. -/
noncomputable def bulletUpdate (fps distance : ℝ) (b : Bullet) : Bullet :=
  { b with
    x := b.x + distance * BULLET_SPEED / fps * Real.cos b.angle
    y := b.y + distance * BULLET_SPEED / fps * Real.sin b.angle
    fall_time := b.fall_time - 1000 / fps }

/-- The bullet after `n` ticks of `Bullet.update` at fixed fps and
grid distance. -/
noncomputable def bulletAfter (fps distance : ℝ) (b : Bullet) (n : ℕ) : Bullet :=
  (bulletUpdate fps distance)^[n] b

/-- The expiry test of `Maze.track_bullets` (maze.py lines 307-311):
at the start of the handling of a bullet, `wound = bullet.fall_time /
BULLET_LIFETIME` is computed and the bullet is removed when
`wound <= 0`. -/
noncomputable def bulletExpired (b : Bullet) : Prop :=
  b.fall_time / BULLET_LIFETIME ≤ 0

/-! ### Enemies (characters.py, classes `Enemy`, `Plum`,
`ScarletRed`) -/

/-- The per-enemy state used by the claims (the back reference to the
maze is passed explicitly where needed). -/
structure EnemyS where
  x : ℤ
  y : ℤ
  color : String
  angle : ℝ
  awake : Bool
  next_strike : ℝ
  offsetx : ℤ
  offsety : ℤ
  spin_queue : ℝ
  wound : ℝ

/-- Point update of a grid map. -/
def mapSet (m : ℤ → ℤ → Nat) (x y : ℤ) (v : Nat) : ℤ → ℤ → Nat :=
  fun a b => if a = x ∧ b = y then v else m a b

/-- `Enemy.place(x, y)` (characters.py lines 195-199): shift the grid
position and, when awake, write the ENEMY tag at the new cell. -/
def enemyPlace (m : ℤ → ℤ → Nat) (e : EnemyS) (dx dy : ℤ) :
    (ℤ → ℤ → Nat) × EnemyS :=
  let e2 := { e with x := e.x + dx, y := e.y + dy }
  (if e2.awake then mapSet m e2.x e2.y ENEMY else m, e2)

/-- The successful branch of `Enemy.move` for a chosen direction
`(dx, dy)` (characters.py lines 256-262): the caller has checked
`self.maze.map[self.x + dx][self.y + dy] == EMPTY`; the offsets are
set from the move speed, the old cell is reset to EMPTY, and
`place(dx, dy)` writes the new cell. -/
noncomputable def enemyMoveTo (m : ℤ → ℤ → Nat) (fps speed : ℝ)
    (e : EnemyS) (dx dy : ℤ) : (ℤ → ℤ → Nat) × EnemyS :=
  let move_speed := fps / speed
  let e1 := { e with offsetx := pyRound ((dx : ℝ) * (1 - move_speed))
                     offsety := pyRound ((dy : ℝ) * (1 - move_speed)) }
  enemyPlace (mapSet m e.x e.y EMPTY) e1 dx dy

/-- `Plum.clone(other)` (characters.py lines 384-393): when the other
enemy is also a Plum, copy position, angle, strike timer, offsets,
spin queue and wound onto it and set it awake; return whether the
clone happened together with the written state. -/
def plumClone (self other : EnemyS) : Bool × EnemyS :=
  if other.color ≠ "Plum" then (false, other)
  else (true,
    { other with x := self.x, y := self.y, angle := self.angle
                 awake := true, next_strike := self.next_strike
                 offsetx := self.offsetx, offsety := self.offsety
                 spin_queue := self.spin_queue, wound := self.wound })

/-- A concrete awake Plum at cell (3, 4), used as the clone source. -/
def plumSource : EnemyS := ⟨3, 4, "Plum", 0, true, 0, 0, 0, 0, 0⟩

/-- A concrete asleep Plum at cell (7, 8), used as the clone target. -/
def plumTarget : EnemyS := ⟨7, 8, "Plum", 0, false, 0, 0, 0, 0, 0⟩

/-! ### ScarletRed behavior (characters.py lines 265-274 and 396-411) -/

/-- `ScarletRed.fire` returns `False` and performs no state change; in
particular `maze.bullets` is returned unchanged. -/
def scarletFire (bullets : List Bullet) : Bool × List Bullet :=
  (false, bullets)

/-- `Enemy.move(speed)` sets `self.move_speed = self.maze.fps / speed`
(characters.py line 251). -/
noncomputable def enemyMoveSpeed (fps speed : ℝ) : ℝ := fps / speed

/-- `ScarletRed.move` calls `Enemy.move(self, ENEMY_SPEED * SQRT2)`
(characters.py line 406). -/
noncomputable def scarletMoveSpeed (fps : ℝ) : ℝ :=
  enemyMoveSpeed fps (ENEMY_SPEED * SQRT2)

/-- `Enemy.get_slash` (characters.py lines 265-268):
`wound = (slashd - distance) / hero.R`, clamped at `0.0` from below. -/
noncomputable def enemyGetSlash (slashd dist R : ℝ) : ℝ :=
  let wound := (slashd - dist) / R
  if wound > 0 then wound else 0

/-- The damage per frame returned by `Enemy.slash` (characters.py line
272): `self.get_slash() / self.spin_speed`. -/
noncomputable def enemySlashWound (slashd dist R spin_speed : ℝ) : ℝ :=
  enemyGetSlash slashd dist R / spin_speed

/-- The amount `Enemy.slash` forwards to `maze.hit_hero` (characters.py
line 273): the per-frame damage when `self.spin_queue` and the damage
are both nonzero, else nothing (`hit_hero` is not called). -/
noncomputable def enemySlashHeroDamage (slashd dist R spin_speed spin_queue : ℝ) : ℝ :=
  let wound := enemySlashWound slashd dist R spin_speed
  if spin_queue ≠ 0 ∧ wound ≠ 0 then wound else 0

/-- The self-wound written by `ScarletRed.slash` (characters.py lines
408-411): `self.wound -= Enemy.slash(self)`, clamped at `0.0` from
below. -/
noncomputable def scarletSlashOwnWound (w slashd dist R spin_speed : ℝ) : ℝ :=
  let w2 := w - enemySlashWound slashd dist R spin_speed
  if w2 < 0 then 0 else w2

/-- The amount a `ScarletRed.slash` forwards to `maze.hit_hero`: it
calls `Enemy.slash(self)`, which performs the same `hit_hero` call as
for any other enemy. -/
noncomputable def scarletSlashHeroDamage (slashd dist R spin_speed spin_queue : ℝ) : ℝ :=
  enemySlashHeroDamage slashd dist R spin_speed spin_queue

/-- A concrete live hero state, mid attack, used as a witness input. -/
def sampleHero : Hero :=
  { angle := 0, next_heal := -1, next_beat := 0, next_strike := 0
    highness := 0, slashing := false, firing := false, dead := false
    spin_speed := 10, spin_queue := 7, wound := 0, wounds := [0] }

/-- A concrete dead hero state used as a witness input. -/
def deadSampleHero : Hero :=
  { angle := 1, next_heal := 2, next_beat := 3, next_strike := 4
    highness := 5, slashing := true, firing := true, dead := true
    spin_speed := 6, spin_queue := 7, wound := 8, wounds := [1, 2] }

/-! ### Helper lemmas -/

/-- An in-range `List.getD` access returns a member of the list. -/
theorem getD_mem {α : Type} : ∀ (l : List α) (n : ℕ) (d : α),
    n < l.length → l.getD n d ∈ l
  | [], n, d, h => absurd h (by simp)
  | a :: l, 0, d, _ => List.mem_cons_self a l
  | a :: l, n + 1, d, h =>
    List.mem_cons_of_mem a (getD_mem l n d (by simpa using h))

/-- `List.getLastD` of a list of nonnegative numbers, with a
nonnegative default, is nonnegative. -/
theorem getLastD_nonneg : ∀ (l : List ℝ) (d : ℝ),
    0 ≤ d → (∀ x ∈ l, 0 ≤ x) → 0 ≤ l.getLastD d
  | [], d, hd, _ => hd
  | a :: l, d, _, hl => by
    rw [List.getLastD_cons]
    exact getLastD_nonneg l a (hl a (List.mem_cons_self a l))
      (fun x hx => hl x (List.mem_cons_of_mem a hx))

/-- Rounding half to even never exceeds an integer strictly above the
value by at least a half. -/
theorem pyRound_le_of_lt (b : ℝ) (n : ℤ) (hb : b < (n : ℝ) + 1 / 2) :
    pyRound b ≤ n := by
  have hfl : (⌊b⌋ : ℝ) ≤ b := Int.floor_le b
  unfold pyRound
  split_ifs with h1 h2 h3
  · have : (⌊b⌋ : ℝ) < (n : ℝ) + 1 := by linarith
    have : ⌊b⌋ < n + 1 := by exact_mod_cast this
    omega
  · have : (⌊b⌋ : ℝ) < (n : ℝ) := by linarith
    have : ⌊b⌋ < n := by exact_mod_cast this
    omega
  · have heq : b - ⌊b⌋ = 1 / 2 := le_antisymm (not_lt.1 h2) (not_lt.1 h1)
    have : (⌊b⌋ : ℝ) < (n : ℝ) := by linarith
    have : ⌊b⌋ < n := by exact_mod_cast this
    omega
  · have heq : b - ⌊b⌋ = 1 / 2 := le_antisymm (not_lt.1 h2) (not_lt.1 h1)
    have : (⌊b⌋ : ℝ) < (n : ℝ) := by linarith
    have : ⌊b⌋ < n := by exact_mod_cast this
    omega

/-- Rounding half to even never drops below an integer strictly below
the value by at least a half. -/
theorem le_pyRound_of_lt (b : ℝ) (n : ℤ) (hb : (n : ℝ) - 1 / 2 < b) :
    n ≤ pyRound b := by
  have hfl : b < (⌊b⌋ : ℝ) + 1 := Int.lt_floor_add_one b
  unfold pyRound
  split_ifs with h1 h2 h3
  · have : (n : ℝ) < (⌊b⌋ : ℝ) + 1 := by linarith
    have : n < ⌊b⌋ + 1 := by exact_mod_cast this
    omega
  · have : (n : ℝ) < (⌊b⌋ : ℝ) + 2 := by linarith
    have : n < ⌊b⌋ + 2 := by exact_mod_cast this
    omega
  · have hexact : b - ⌊b⌋ = 1 / 2 := le_antisymm (not_lt.1 h2) (not_lt.1 h1)
    have : (n : ℝ) < (⌊b⌋ : ℝ) + 1 := by linarith
    have : n < ⌊b⌋ + 1 := by exact_mod_cast this
    omega
  · have hexact : b - ⌊b⌋ = 1 / 2 := le_antisymm (not_lt.1 h2) (not_lt.1 h1)
    have : (n : ℝ) < (⌊b⌋ : ℝ) + 1 := by linarith
    have : n < ⌊b⌋ + 1 := by exact_mod_cast this
    omega

/-! ### Claim C8 -/

/-- Claim C8: for every dx, dy in -1..1, encoding
`moveCode = (dy+1)*3+(dx+1)` and then decoding as the server does
(`divmod(moveCode, 3)` with 1 subtracted from each component) recovers
exactly (dx, dy); and for every moveCode in 0..8 the decoded pair
re-encodes to the same moveCode. -/
theorem moveCode_round_trip (dx dy move : ℤ)
    (hdx1 : -1 ≤ dx) (hdx2 : dx ≤ 1) (hdy1 : -1 ≤ dy) (hdy2 : dy ≤ 1)
    (hm1 : 0 ≤ move) (hm2 : move ≤ 8) :
    moveDecode (moveEncode dx dy) = (dx, dy) ∧
    moveEncode (moveDecode move).1 (moveDecode move).2 = move := by
  constructor
  · simp only [moveEncode, moveDecode, Prod.mk.injEq]
    omega
  · simp only [moveEncode, moveDecode]
    omega

/-- Witness for C8 at dx = 1, dy = -1, moveCode = 5. -/
theorem moveCode_round_trip_witness :
    moveDecode (moveEncode 1 (-1)) = (1, -1) ∧
    moveEncode (moveDecode 5).1 (moveDecode 5).2 = 5 :=
  moveCode_round_trip 1 (-1) 5 (by norm_num) (by norm_num) (by norm_num)
    (by norm_num) (by norm_num) (by norm_num)

/-! ### Claim C9 -/

/-- Claim C9: for every color name drawn from ENEMIES, `new_enemy`
returns an enemy object without raising: it carries the drawn color,
and when the module defines no class of that name (Butter, Orange,
Chocolate, SkyBlue) the AttributeError branch returns a base Enemy
with that color. -/
theorem new_enemy_fallback (c : String) (hc : c ∈ ENEMIES) :
    (new_enemy c).color = c ∧
    (c ∉ moduleEnemyClasses → (new_enemy c).cls = "Enemy") := by
  fin_cases hc <;> exact ⟨rfl, by decide⟩

/-- Witness for C9 at the color Butter, which has no class of its
own. -/
theorem new_enemy_fallback_witness :
    (new_enemy "Butter").color = "Butter" ∧
    ("Butter" ∉ moduleEnemyClasses → (new_enemy "Butter").cls = "Enemy") :=
  new_enemy_fallback "Butter" (by decide)

/-! ### Claim C3 -/

/-- Every cell put out by the `add_enemy` loop either was in the
accumulator already or is a candidate wall cell whose four neighbors
are not all WALL. -/
theorem addEnemyLoop_spawn_mem (m : ℤ → ℤ → Nat) (num : ℕ) (k : ℕ) :
    ∀ (picks : List ℕ) (walls acc : List (ℤ × ℤ)) (p : ℤ × ℤ),
      p ∈ addEnemyLoop m num k picks walls acc →
      p ∈ acc ∨ (p ∈ walls ∧ allWallAdjacent m p = false) := by
  intro picks
  induction picks with
  | nil => intro walls acc p hp; exact Or.inl hp
  | cons pick picks ih =>
    intro walls acc p hp
    rw [addEnemyLoop] at hp
    dsimp only at hp
    split at hp
    · exact Or.inl hp
    · rename_i hcond
      split at hp
      · rcases ih walls acc p hp with h | h
        · exact Or.inl h
        · exact Or.inr h
      · rename_i hadj
        have hne : walls ≠ [] := by
          intro hnil
          exact hcond (Or.inl (by simp [hnil]))
        have hlt : pick % walls.length < walls.length :=
          Nat.mod_lt _ (List.length_pos.2 hne)
        have hc : walls.getD (pick % walls.length) (0, 0) ∈ walls :=
          getD_mem walls _ _ hlt
        rcases ih _ _ p hp with h | ⟨h1, h2⟩
        · rcases List.mem_append.1 h with h | h
          · exact Or.inl h
          · have hp2 : p = walls.getD (pick % walls.length) (0, 0) := by
              simpa using h
            rw [hp2]
            exact Or.inr ⟨hc, by simpa using hadj⟩
        · exact Or.inr ⟨List.mem_of_mem_erase h1, h2⟩

/-- Claim C3 (amended): every cell at which `Maze.add_enemy` creates
an enemy is inside the displayed window (first coordinate in rangex,
second in rangey), holds WALL on the map, and has at least one
edge-adjacent neighbor that is NOT a wall: candidates whose four
neighbors are all WALL are skipped by the loop, the opposite of the
claimed filter. -/
theorem add_enemy_spawn_cells (m : ℤ → ℤ → Nat) (rangex rangey : List ℤ)
    (num : ℕ) (k : ℕ) (picks : List ℕ) (p : ℤ × ℤ)
    (hp : p ∈ add_enemy m rangex rangey num k picks) :
    p.1 ∈ rangex ∧ p.2 ∈ rangey ∧ m p.1 p.2 = WALL ∧
      allWallAdjacent m p = false := by
  rcases addEnemyLoop_spawn_mem m num k picks _ [] p hp with h | ⟨h1, h2⟩
  · simp at h
  · obtain ⟨hmem, hwall⟩ := List.mem_filter.1 h1
    rcases List.mem_flatMap.1 hmem with ⟨i, hi, hji⟩
    rcases List.mem_map.1 hji with ⟨j, hj, hpj⟩
    have hx : p.1 = i := by rw [← hpj]
    have hy : p.2 = j := by rw [← hpj]
    refine ⟨hx ▸ hi, hy ▸ hj, ?_, h2⟩
    simpa using hwall

/-- Claim C3 counterexample: on a map whose only visible walls are
(0, 0) and (1, 0), `add_enemy` spawns an enemy at (0, 0) although the
edge-adjacent neighbor (0, 1) of that cell is not a wall, refuting
"add_enemy never spawns an enemy at a wall cell that has at least one
non-wall 4-neighbor". -/
theorem add_enemy_spawns_at_exposed_wall :
    add_enemy twoWallMap [0, 1] [0] 1 0 [0] = [(0, 0)] ∧
    ((0 : ℤ), (1 : ℤ)) ∈ ADJACENTS ∧
    twoWallMap (0 + 0) (0 + 1) ≠ WALL := by
  refine ⟨by decide, by decide, by decide⟩

/-- Witness for C3 (amended) on the same concrete map. -/
theorem add_enemy_spawn_cells_witness :
    ((0 : ℤ), (0 : ℤ)) ∈ add_enemy twoWallMap [0, 1] [0] 1 0 [0] ∧
    ((0 : ℤ) ∈ [(0 : ℤ), 1] ∧ (0 : ℤ) ∈ [(0 : ℤ)] ∧
      twoWallMap 0 0 = WALL ∧
      allWallAdjacent twoWallMap (0, 0) = false) :=
  ⟨by decide,
   add_enemy_spawn_cells twoWallMap [0, 1] [0] 1 0 [0] (0, 0) (by decide)⟩

/-! ### Claim C5 -/

/-- Claim C5 counterexample: `Plum.clone` copies the position of the
cloning Plum onto the freshly created one and sets it awake, so a
state with an awake Plum at (3, 4) and a second Plum at a different
cell (7, 8) yields, after the clone performed by `add_enemy`, two
awake enemies in the same grid cell, refuting the claimed exclusive
occupancy invariant. -/
theorem plum_clone_shares_cell :
    (plumClone plumSource plumTarget).1 = true ∧
    (plumClone plumSource plumTarget).2.x = plumSource.x ∧
    (plumClone plumSource plumTarget).2.y = plumSource.y ∧
    (plumClone plumSource plumTarget).2.awake = true ∧
    plumSource.awake = true ∧
    plumTarget.x ≠ plumSource.x := by
  refine ⟨rfl, rfl, rfl, rfl, rfl, by decide⟩

/-- Claim C5 (amended): distinct awake enemies keep distinct grid
cells under `Enemy.move`, which writes a new position only after
checking the target cell holds EMPTY while every awake enemy cell is
tagged ENEMY; the exception is `Plum.clone` (reached from
`Maze.add_enemy` when an awake Plum exists), which deliberately
places the cloned Plum, awake, at the very cell of the cloning
Plum. -/
theorem enemy_move_exclusive_cells (m : ℤ → ℤ → Nat) (fps speed : ℝ)
    (e : EnemyS) (dx dy : ℤ) (others : List EnemyS)
    (htarget : m (e.x + dx) (e.y + dy) = EMPTY)
    (hcons : ∀ o ∈ others, o.awake = true → m o.x o.y = ENEMY) :
    (∀ o ∈ others, o.awake = true →
      ((enemyMoveTo m fps speed e dx dy).2.x,
        (enemyMoveTo m fps speed e dx dy).2.y) ≠ (o.x, o.y)) ∧
    (∀ self other : EnemyS, other.color = "Plum" →
      (plumClone self other).2.x = self.x ∧
      (plumClone self other).2.y = self.y ∧
      (plumClone self other).2.awake = true) := by
  constructor
  · intro o ho hoa heq
    have hx : (enemyMoveTo m fps speed e dx dy).2.x = e.x + dx := rfl
    have hy : (enemyMoveTo m fps speed e dx dy).2.y = e.y + dy := rfl
    rw [hx, hy, Prod.mk.injEq] at heq
    have hoe := hcons o ho hoa
    rw [← heq.1, ← heq.2] at hoe
    rw [htarget] at hoe
    exact absurd hoe (by decide)
  · intro self other hcol
    simp [plumClone, hcol]

/-- Witness for C5 (amended): a concrete move of the asleep Plum at
(7, 8) one cell to the right, with the awake Plum at (3, 4) as the
only other enemy. -/
theorem enemy_move_exclusive_cells_witness :
    (∀ o ∈ [plumSource], o.awake = true →
      ((enemyMoveTo (mapSet twoWallMap 3 4 ENEMY) 60 6 plumTarget 1 0).2.x,
        (enemyMoveTo (mapSet twoWallMap 3 4 ENEMY) 60 6 plumTarget 1 0).2.y) ≠
        (o.x, o.y)) ∧
    (∀ self other : EnemyS, other.color = "Plum" →
      (plumClone self other).2.x = self.x ∧
      (plumClone self other).2.y = self.y ∧
      (plumClone self other).2.awake = true) :=
  enemy_move_exclusive_cells (mapSet twoWallMap 3 4 ENEMY) 60 6 plumTarget 1 0
    [plumSource] rfl
    (by
      intro o ho hoa
      rw [List.mem_singleton.1 ho]
      rfl)

/-! ### Claim C4 -/

/-- Claim C4 counterexample: with slash range 2, distance 1, hero
circumradius 1, spin speed 1 and a nonzero spin queue, the slash of a
ScarletRed forwards damage 1, not 0, to `maze.hit_hero` (which adds it
to `hero.wounds` just as for any other enemy color), refuting the part
of the claim that a ScarletRed slash adds no wound to the hero. -/
theorem scarletred_slash_hits_hero :
    scarletSlashHeroDamage 2 1 1 1 1 = 1 ∧ (1 : ℝ) ≠ 0 := by
  constructor
  · rw [scarletSlashHeroDamage, enemySlashHeroDamage]
    have hw : enemySlashWound 2 1 1 1 = 1 := by
      rw [enemySlashWound, enemyGetSlash]
      norm_num
    rw [hw]
    norm_num
  · norm_num

/-- Claim C4 (amended): a ScarletRed enemy never fires (`fire` returns
False and leaves `maze.bullets` unchanged); it moves with speed
`ENEMY_SPEED * sqrt 2`; and its melee slash heals itself, decreasing
its own wound clamped below at 0, while still forwarding to
`maze.hit_hero` exactly the same damage as a base Enemy slash. -/
theorem scarletred_behavior (bs : List Bullet)
    (fps w slashd dist R s q : ℝ) (hs : 0 < s) (hw : 0 ≤ w) :
    scarletFire bs = (false, bs) ∧
    scarletMoveSpeed fps = fps / (ENEMY_SPEED * Real.sqrt 2) ∧
    (0 ≤ scarletSlashOwnWound w slashd dist R s ∧
      scarletSlashOwnWound w slashd dist R s ≤ w) ∧
    scarletSlashHeroDamage slashd dist R s q =
      enemySlashHeroDamage slashd dist R s q := by
  refine ⟨rfl, rfl, ?_, rfl⟩
  have h0 : 0 ≤ enemySlashWound slashd dist R s := by
    rw [enemySlashWound]
    refine div_nonneg ?_ (le_of_lt hs)
    rw [enemyGetSlash]
    split_ifs with h
    · exact le_of_lt h
    · exact le_refl 0
  rw [scarletSlashOwnWound]
  split_ifs with h
  · exact ⟨le_refl 0, hw⟩
  · constructor
    · exact not_lt.1 h
    · linarith

/-- Witness for C4 (amended) at concrete slash geometry. -/
theorem scarletred_behavior_witness :
    scarletFire [] = (false, []) ∧
    scarletMoveSpeed 60 = 60 / (ENEMY_SPEED * Real.sqrt 2) ∧
    (0 ≤ scarletSlashOwnWound 1 2 1 1 1 ∧
      scarletSlashOwnWound 1 2 1 1 1 ≤ 1) ∧
    scarletSlashHeroDamage 2 1 1 1 1 = enemySlashHeroDamage 2 1 1 1 1 :=
  scarletred_behavior [] 60 1 2 1 1 1 1 (by norm_num) (by norm_num)

/-! ### Claim C1 -/

/-- Claim C1: the FPS rescaling step of `Hero.update` (assigning
`spin_speed = fps / (HERO_HP - wound ** 0.5)` and multiplying
`spin_queue` by the speed ratio) and the matching step of
`Enemy.update` preserve the ratio `spin_queue / spin_speed`, the
wall-clock time remaining in an in-flight attack, for every state with
nonzero old spin speed, every positive new fps, and every wound inside
the hero HP range. -/
theorem spin_rescale_preserves_ratio (fps : ℝ) (h : Hero) (es eq : ℝ)
    (hold : h.spin_speed ≠ 0) (hes : es ≠ 0) (hfps : 0 < fps)
    (hw0 : 0 ≤ h.wound) (hw5 : h.wound ≤ HERO_HP) :
    heroSpinQueueRescaled fps h / heroSpinSpeed fps h =
      h.spin_queue / h.spin_speed ∧
    enemySpinQueueRescaled fps es eq / (fps / ENEMY_HP) = eq / es := by
  have hH : HERO_HP = (5 : ℝ) := rfl
  have hsq : Real.sqrt h.wound < 5 :=
    (Real.sqrt_lt' (by norm_num : (0 : ℝ) < 5)).2 (by rw [hH] at hw5; nlinarith)
  have hdenpos : 0 < HERO_HP - Real.sqrt h.wound := by rw [hH]; linarith
  have hden : HERO_HP - Real.sqrt h.wound ≠ 0 := ne_of_gt hdenpos
  have hE : ENEMY_HP ≠ (0 : ℝ) := by norm_num [ENEMY_HP]
  constructor
  · rw [heroSpinQueueRescaled, heroSpinSpeed]
    field_simp
    ring
  · rw [enemySpinQueueRescaled]
    field_simp
    ring

/-- Witness for C1 at fps 60, spin speed 10, spin queue 7, wound 0. -/
theorem spin_rescale_preserves_ratio_witness :
    heroSpinQueueRescaled 60 sampleHero / heroSpinSpeed 60 sampleHero =
      sampleHero.spin_queue / sampleHero.spin_speed ∧
    enemySpinQueueRescaled 60 10 7 / (60 / ENEMY_HP) = 7 / 10 :=
  spin_rescale_preserves_ratio 60 sampleHero 10 7
    (by norm_num [sampleHero]) (by norm_num) (by norm_num)
    (by norm_num [sampleHero]) (by norm_num [sampleHero, HERO_HP])

/-! ### Claim C10 -/

/-- Claim C10: for every hero state with dead set and every fps,
`Hero.update` zeroes `spin_queue` and returns immediately, leaving
every other attribute (wound, angle, spin speed, timers, flags, the
wounds deque) unchanged. -/
theorem hero_update_dead_frozen (fps rnd : ℝ) (h : Hero)
    (hd : h.dead = true) :
    heroUpdate fps rnd h = { h with spin_queue := 0 } := by
  rw [heroUpdate, if_pos hd]

/-- Witness for C10 on a concrete dead hero state. -/
theorem hero_update_dead_frozen_witness :
    heroUpdate 60 1 deadSampleHero = { deadSampleHero with spin_queue := 0 } :=
  hero_update_dead_frozen 60 1 deadSampleHero rfl

/-! ### Claim C2 -/

/-- The popped wounds deque keeps only nonnegative entries. -/
theorem heroWoundsPopped_nonneg (fps : ℝ) (h : Hero)
    (hws : ∀ w ∈ h.wounds, 0 ≤ w) :
    ∀ w ∈ heroWoundsPopped fps h, 0 ≤ w := by
  intro w hw
  rw [heroWoundsPopped] at hw
  split at hw
  · exact hws w (List.mem_of_mem_tail hw)
  · exact hws w hw

/-- The wound written by `Hero.update` stays nonnegative: incoming
damage is nonnegative and the healing branch clamps at zero. -/
theorem heroWound1_nonneg (fps : ℝ) (h : Hero)
    (hw : 0 ≤ h.wound) (hws : ∀ w ∈ h.wounds, 0 ≤ w) :
    0 ≤ heroWound1 fps h := by
  have hlast : 0 ≤ (heroWoundsPopped fps h).getLastD 0 :=
    getLastD_nonneg _ 0 (le_refl 0) (heroWoundsPopped_nonneg fps h hws)
  rw [heroWound1]
  dsimp only
  split_ifs with h1 h2
  · exact le_refl 0
  · exact not_lt.1 h2
  · linarith

/-- For a live hero `Hero.update` writes exactly the wound value of
the lines 79-84 pipeline. -/
theorem heroUpdate_wound_eq (fps rnd : ℝ) (h : Hero)
    (hd : h.dead = false) :
    (heroUpdate fps rnd h).wound = heroWound1 fps h := by
  rw [heroUpdate, if_neg (by rw [hd]; exact Bool.false_ne_true)]

/-- Claim C2: after the hero fragment of `Maze.update` (the
`Hero.update` call followed by the `wound >= HERO_HP` check that runs
`lose()` in the same tick), the hero wound lies in [0, HERO_HP]; when
the accumulated wound reaches HERO_HP, `lose` sets it to exactly
HERO_HP and sets dead. -/
theorem maze_update_wound_in_range (fps rnd : ℝ) (h : Hero)
    (hd : h.dead = false) (hw : 0 ≤ h.wound)
    (hws : ∀ w ∈ h.wounds, 0 ≤ w) :
    0 ≤ (heroTick fps rnd h).wound ∧
    (heroTick fps rnd h).wound ≤ HERO_HP ∧
    (HERO_HP ≤ (heroUpdate fps rnd h).wound →
      (heroTick fps rnd h).dead = true ∧
      (heroTick fps rnd h).wound = HERO_HP) := by
  have hnn : 0 ≤ (heroUpdate fps rnd h).wound := by
    rw [heroUpdate_wound_eq fps rnd h hd]
    exact heroWound1_nonneg fps h hw hws
  rw [heroTick, if_neg (by rw [hd]; exact Bool.false_ne_true)]
  dsimp only
  split_ifs with h1
  · refine ⟨?_, ?_, fun _ => ⟨rfl, rfl⟩⟩
    · show (0 : ℝ) ≤ HERO_HP
      norm_num [HERO_HP]
    · show HERO_HP ≤ HERO_HP
      exact le_refl _
  · exact ⟨hnn, le_of_lt (not_le.1 h1), fun hc => absurd hc h1⟩

/-- Witness for C2 on a concrete live hero state. -/
theorem maze_update_wound_in_range_witness :
    0 ≤ (heroTick 60 1 sampleHero).wound ∧
    (heroTick 60 1 sampleHero).wound ≤ HERO_HP ∧
    (HERO_HP ≤ (heroUpdate 60 1 sampleHero).wound →
      (heroTick 60 1 sampleHero).dead = true ∧
      (heroTick 60 1 sampleHero).wound = HERO_HP) :=
  maze_update_wound_in_range 60 1 sampleHero rfl (by norm_num [sampleHero])
    (by
      intro w hw
      rw [show sampleHero.wounds = [0] from rfl] at hw
      rw [List.mem_singleton.1 hw])

/-! ### Claim C6 -/

/-- `Bullet.update` never changes the stored angle. -/
theorem bulletAfter_angle (fps distance : ℝ) (b : Bullet) (n : ℕ) :
    (bulletAfter fps distance b n).angle = b.angle := by
  induction n with
  | zero => rfl
  | succ n ih =>
    rw [bulletAfter, Function.iterate_succ_apply']
    exact ih

/-- After n ticks the remaining fall time has decreased by exactly
`n * (1000 / fps)`. -/
theorem bulletAfter_fall_time (fps distance : ℝ) (b : Bullet) (n : ℕ) :
    (bulletAfter fps distance b n).fall_time =
      b.fall_time - n * (1000 / fps) := by
  induction n with
  | zero => simp [bulletAfter]
  | succ n ih =>
    rw [bulletAfter, Function.iterate_succ_apply']
    show (bulletAfter fps distance b n).fall_time - 1000 / fps = _
    rw [ih]
    push_cast
    ring

/-- After n ticks the x coordinate has advanced by n ballistic
steps along the fixed angle. -/
theorem bulletAfter_x (fps distance : ℝ) (b : Bullet) (n : ℕ) :
    (bulletAfter fps distance b n).x =
      b.x + n * (distance * BULLET_SPEED / fps) * Real.cos b.angle := by
  induction n with
  | zero => simp [bulletAfter]
  | succ n ih =>
    rw [bulletAfter, Function.iterate_succ_apply']
    show (bulletAfter fps distance b n).x +
        distance * BULLET_SPEED / fps *
          Real.cos (bulletAfter fps distance b n).angle = _
    rw [ih, bulletAfter_angle]
    push_cast
    ring

/-- After n ticks the y coordinate has advanced by n ballistic
steps along the fixed angle. -/
theorem bulletAfter_y (fps distance : ℝ) (b : Bullet) (n : ℕ) :
    (bulletAfter fps distance b n).y =
      b.y + n * (distance * BULLET_SPEED / fps) * Real.sin b.angle := by
  induction n with
  | zero => simp [bulletAfter]
  | succ n ih =>
    rw [bulletAfter, Function.iterate_succ_apply']
    show (bulletAfter fps distance b n).y +
        distance * BULLET_SPEED / fps *
          Real.sin (bulletAfter fps distance b n).angle = _
    rw [ih, bulletAfter_angle]
    push_cast
    ring

/-- Claim C6: each tick `Bullet.update` moves the bullet by exactly
`distance * BULLET_SPEED / fps` along its fixed angle and decreases
`fall_time` by `1000 / fps`; and the expiry check of `track_bullets`
(`fall_time / BULLET_LIFETIME <= 0` at the start of the tick) holds
exactly when the elapsed time since firing has reached
BULLET_LIFETIME, never one tick later, under exact arithmetic. -/
theorem bullet_motion_and_expiry (fps distance x y angle : ℝ)
    (c : String) (n : ℕ) (hfps : 0 < fps) :
    (∀ b : Bullet, bulletUpdate fps distance b =
      { b with x := b.x + distance * BULLET_SPEED / fps * Real.cos b.angle
               y := b.y + distance * BULLET_SPEED / fps * Real.sin b.angle
               fall_time := b.fall_time - 1000 / fps }) ∧
    (bulletAfter fps distance (newBullet x y angle c) n).x =
      x + n * (distance * BULLET_SPEED / fps) * Real.cos angle ∧
    (bulletAfter fps distance (newBullet x y angle c) n).y =
      y + n * (distance * BULLET_SPEED / fps) * Real.sin angle ∧
    (bulletAfter fps distance (newBullet x y angle c) n).fall_time =
      BULLET_LIFETIME - n * (1000 / fps) ∧
    (bulletExpired (bulletAfter fps distance (newBullet x y angle c) n) ↔
      BULLET_LIFETIME ≤ n * (1000 / fps)) := by
  have hL : BULLET_LIFETIME = 600 := by
    norm_num [BULLET_LIFETIME, FIRANGE, BULLET_SPEED, HERO_SPEED]
  refine ⟨fun b => rfl, ?_, ?_, ?_, ?_⟩
  · rw [bulletAfter_x]
    rfl
  · rw [bulletAfter_y]
    rfl
  · rw [bulletAfter_fall_time]
    rfl
  · rw [bulletExpired, bulletAfter_fall_time]
    show (BULLET_LIFETIME - n * (1000 / fps)) / BULLET_LIFETIME ≤ 0 ↔ _
    rw [hL, div_le_iff₀ (by norm_num : (0 : ℝ) < 600)]
    constructor <;> intro hh <;> linarith

/-- Witness for C6 at fps 50, distance 1, three elapsed ticks. -/
theorem bullet_motion_and_expiry_witness :
    (∀ b : Bullet, bulletUpdate 50 1 b =
      { b with x := b.x + 1 * BULLET_SPEED / 50 * Real.cos b.angle
               y := b.y + 1 * BULLET_SPEED / 50 * Real.sin b.angle
               fall_time := b.fall_time - 1000 / 50 }) ∧
    (bulletAfter 50 1 (newBullet 0 0 0 "Aluminium") 3).x =
      0 + (3 : ℕ) * (1 * BULLET_SPEED / 50) * Real.cos 0 ∧
    (bulletAfter 50 1 (newBullet 0 0 0 "Aluminium") 3).y =
      0 + (3 : ℕ) * (1 * BULLET_SPEED / 50) * Real.sin 0 ∧
    (bulletAfter 50 1 (newBullet 0 0 0 "Aluminium") 3).fall_time =
      BULLET_LIFETIME - (3 : ℕ) * (1000 / 50) ∧
    (bulletExpired (bulletAfter 50 1 (newBullet 0 0 0 "Aluminium") 3) ↔
      BULLET_LIFETIME ≤ (3 : ℕ) * (1000 / 50)) :=
  bullet_motion_and_expiry 50 1 0 0 0 "Aluminium" 3 (by norm_num)

/-! ### Claim C7 -/

/-- Claim C7 counterexample: the exported angle of 0 radians is
`deg(0) = round(0 + 360) = 360`, which is not below 360, refuting
"for every real angle x the exported value deg(x) lies in
[0, 360)". -/
theorem deg_zero_eq_360 : deg 0 = 360 ∧ ¬ deg 0 < 360 := by
  have hz : (0 : ℝ) * 180 / Real.pi = 0 := by
    rw [zero_mul, zero_div]
  have h : deg 0 = 360 := by
    rw [deg]
    dsimp only
    rw [hz, if_neg (by norm_num)]
    rw [zero_add, pyRound]
    have hf : ⌊(360 : ℝ)⌋ = 360 := by
      norm_num
    rw [hf]
    norm_num
  exact ⟨h, by rw [h]; omega⟩

/-- Claim C7 (amended): `deg x` is an integer in [0, 360) whenever the
degree measure `a = x * 180 / pi` lies in (0, 359.5) or in
(-360.5, -0.5); outside those bands the single-branch correction
`a if a > 0 else a + 360` of misc.py does not reduce the angle into
[0, 360) (for example `deg 0 = 360`, and multiples of a full turn
overflow). -/
theorem deg_in_range (x : ℝ)
    (hx : 0 < x * 180 / Real.pi ∧ x * 180 / Real.pi < 359.5 ∨
      -360.5 < x * 180 / Real.pi ∧ x * 180 / Real.pi < -0.5) :
    0 ≤ deg x ∧ deg x < 360 := by
  rw [deg]
  dsimp only
  rcases hx with ⟨h1, h2⟩ | ⟨h1, h2⟩
  · rw [if_pos h1]
    constructor
    · exact le_pyRound_of_lt _ 0 (by push_cast; linarith)
    · have h3 : pyRound (x * 180 / Real.pi) ≤ 359 :=
        pyRound_le_of_lt _ 359 (by push_cast; linarith)
      omega
  · rw [if_neg (by linarith)]
    constructor
    · exact le_pyRound_of_lt _ 0 (by push_cast; linarith)
    · have h3 : pyRound (x * 180 / Real.pi + 360) ≤ 359 :=
        pyRound_le_of_lt _ 359 (by push_cast; linarith)
      omega

/-- Witness for C7 (amended) at x = pi, whose degree measure is
180. -/
theorem deg_in_range_witness :
    (0 < Real.pi * 180 / Real.pi ∧ Real.pi * 180 / Real.pi < 359.5 ∨
      -360.5 < Real.pi * 180 / Real.pi ∧ Real.pi * 180 / Real.pi < -0.5) ∧
    (0 ≤ deg Real.pi ∧ deg Real.pi < 360) := by
  have ha : Real.pi * 180 / Real.pi = 180 := by
    rw [div_eq_iff Real.pi_ne_zero]
    ring
  have hh : 0 < Real.pi * 180 / Real.pi ∧ Real.pi * 180 / Real.pi < 359.5 := by
    rw [ha]
    norm_num
  exact ⟨Or.inl hh, deg_in_range Real.pi (Or.inl hh)⟩

end Brutalmaze
